import Mathlib

/-!
Verification development for the sieve pipeline core
(`internal/engine`, `internal/config`, `internal/rss`, `internal/ai`).

The Go source is shallowly embedded: pointer mutation of `storage.Item`
becomes explicit value threading, external collaborators (the SQLite
store, the plugin registry, the feed parser, the AI HTTP providers)
become oracle functions supplied in an environment record, and every
observable action of the pipeline (existence check, plugin execution,
Classify/Summarize invocation, save, rate-token and admission-slot
operations, progress events) is recorded in an event trace.  The
embedding covers the executions in which the run context is never
cancelled; cancellation branches of the Go code are the only ones not
represented.
-/

namespace Sieve

/-- `storage.Item`: one unit of content.  `PublishedAt` is modelled as a
natural-number timestamp. -/
structure Item where
  ID : String
  Source : String
  Title : String
  Link : String
  Description : String
  Content : String
  Summary : String
  InterestLevel : String
  Reason : String
  Thought : String
  PublishedAt : Nat
  deriving DecidableEq, Repr

/-- `config.AIConfig`. -/
structure AIConfig where
  Provider : String
  Model : String
  deriving DecidableEq, Repr

/-- `config.GlobalConfig` (fields used by the pipeline core). -/
structure GlobalConfig where
  HighInterest : String
  Interest : String
  Uninterested : String
  Exclude : String
  PreferredLanguage : String
  AI : Option AIConfig
  AITimeBetweenRequests : Int
  AIBurstLimit : Int
  AIMaxConcurrency : Int
  deriving DecidableEq, Repr

/-- `config.SourceConfig`. -/
structure SourceConfig where
  Name : String
  Title : String
  URL : String
  HighInterest : String
  Interest : String
  Uninterested : String
  Exclude : String
  Plugins : List String
  Summarize : Bool
  AI : Option AIConfig
  deriving DecidableEq, Repr

/-- `config.Config`. -/
structure Config where
  Global : GlobalConfig
  Sources : List SourceConfig
  deriving Repr

/-- `config.mergeStrings`: combines global and source-specific string
values; when both are non-empty they are concatenated with a comma
separator, global first. -/
def mergeStrings (global specific : String) : String :=
  if specific ≠ "" then
    if global = "" then specific
    else global ++ "," ++ specific
  else global

/-- `config.MergeRules`. -/
def MergeRules (global specific : String) : String :=
  mergeStrings global specific

/-- `config.BuildRulesString`: the effective rules string sent to the
classifier for one source. -/
def BuildRulesString (global : GlobalConfig) (src : SourceConfig) : String :=
  "High: " ++ MergeRules global.HighInterest src.HighInterest ++
  ", Interest: " ++ MergeRules global.Interest src.Interest ++
  ", Uninterested: " ++ MergeRules global.Uninterested src.Uninterested ++
  ", Exclude: " ++ MergeRules global.Exclude src.Exclude

/-- `config.ResolveAIConfig`: source-specific non-empty fields override
global ones. -/
def ResolveAIConfig (global source : Option AIConfig) : Option AIConfig :=
  match source with
  | none => global
  | some s =>
    match global with
    | none => some s
    | some g =>
      some { Provider := if s.Provider ≠ "" then s.Provider else g.Provider
             Model := if s.Model ≠ "" then s.Model else g.Model }

/-- Result triple of `Client.Classify`: reasoning trace, interest level,
justification. -/
structure ClassifyRes where
  thought : String
  level : String
  reason : String
  deriving DecidableEq, Repr

/-- One observable action of the pipeline, in execution order. -/
inductive Event where
  | sourceStart (src : String)
  | sourceDone (src msg : String) (count total : Nat)
  | itemStart (src item : String) (count total : Nat)
  | itemDone (src item level : String) (count total : Nat)
  | genStart
  | genDone
  | token
  | acquire
  | release
  | existsCheck (id : String)
  | classifyCall (title content rules lang : String)
  | summarizeCall (title content lang : String)
  | saveCall (it : Item)
  | pluginRun (name : String)
  deriving DecidableEq, Repr

/-- An event is an inference call (Classify or Summarize). -/
def Event.isInference : Event → Bool
  | .classifyCall _ _ _ _ => true
  | .summarizeCall _ _ _ => true
  | _ => false

/-- The durable store, modelled from the spec: the storage collaborator
(`Exists`/`SaveItem`, implemented over SQLite) is not under `src/`; per
its interface contract it is a key-value map from item identity to
record, `SaveItem` being an upsert. -/
def Store := List (String × Item)

/-- `Storage.Exists`, modelled from the spec: membership of the identity
in the store. -/
def Store.existsId (st : Store) (id : String) : Bool :=
  (st.find? (fun p => p.1 = id)).isSome

/-- `Storage.SaveItem`, modelled from the spec: upsert keyed on the
item's identity. -/
def Store.saveItem (st : Store) (it : Item) : Store :=
  match st with
  | [] => [(it.ID, it)]
  | p :: rest =>
    if p.1 = it.ID then (it.ID, it) :: rest
    else p :: Store.saveItem rest it

/-- Lookup of a stored record by identity. -/
def Store.lookup (st : Store) (id : String) : Option Item :=
  (st.find? (fun p => p.1 = id)).map (fun p => p.2)

/-- Failure injection for the storage collaborator: an injected error
for an `Exists` call on a given identity, and for a `SaveItem` call on a
given record.  `none` means the call succeeds. -/
structure StoreOracle where
  existsErr : String → Option String
  saveErr : Item → Option String

/-- The plugin registry (`plugin.Get`): a name either resolves to a
transform on items that may fail, or is unknown. -/
structure PluginReg where
  get : String → Option (Item → Except String Item)

/-- The inference collaborator: `Classify` and `Summarize` as functions
of their full argument lists, each returning a result or an error. -/
structure AIOracle where
  classify : Option AIConfig → String → String → String → String → Except String ClassifyRes
  summarize : Option AIConfig → String → String → String → Except String String

/-- The environment of one engine: configuration plus the external
collaborators (store failure injection, plugin registry, inference
client, feed fetcher). -/
structure Env where
  cfg : Config
  plugins : PluginReg
  store : StoreOracle
  ai : AIOracle
  fetch : String → String → Except String (List Item)

/-- Outcome of `processItem`: the returned error value, the item as
finally mutated, the updated store, and the trace of actions. -/
structure POut where
  res : Except String Unit
  item : Item
  store : Store
  trace : List Event

/-- The plugin loop of `processItem` (step 2): unknown plugins are
skipped, a plugin error aborts the item. -/
def runPlugins (reg : PluginReg) : List String → Item → Except String Item × List Event
  | [], it => (.ok it, [])
  | name :: rest, it =>
    match reg.get name with
    | none => runPlugins reg rest it
    | some p =>
      match p it with
      | .error e => (.error ("plugin " ++ name ++ " failed: " ++ e), [.pluginRun name])
      | .ok it' =>
        ((runPlugins reg rest it').1, .pluginRun name :: (runPlugins reg rest it').2)

/-- The `SaveItem` call at the end of `processItem` (step 6). -/
def runSave (o : StoreOracle) (st : Store) (it : Item) : Except String Unit × Store :=
  match o.saveErr it with
  | some e => (.error e, st)
  | none => (.ok (), st.saveItem it)

/-- `Engine.processItem` (engine.go): early-exit existence check,
plugin enrichment, Phase-1 classification with fallback to
`uninterested` on failure, conditional summarize + Phase-2
reclassification, atomic persistence. -/
def processItem (env : Env) (src : SourceConfig) (item : Item) (rules : String)
    (st : Store) : POut :=
  -- 1. Early Exit check
  match env.store.existsErr item.ID with
  | some e => ⟨.error ("check exists: " ++ e), item, st, [.existsCheck item.ID]⟩
  | none =>
    if st.existsId item.ID then ⟨.ok (), item, st, [.existsCheck item.ID]⟩
    else
      -- 2. Run initial plugins
      match runPlugins env.plugins src.Plugins item with
      | (.error e, pevs) => ⟨.error e, item, st, .existsCheck item.ID :: pevs⟩
      | (.ok item1, pevs) =>
        -- 3. Resolve AI settings
        let aiCfg := ResolveAIConfig env.cfg.Global.AI src.AI
        let lang := env.cfg.Global.PreferredLanguage
        -- 4. Phase 1: Initial Classification (Title + RSS Description)
        let (thought1, level1, reason1) :=
          match env.ai.classify aiCfg item1.Title item1.Description rules lang with
          | .ok r => (r.thought, r.level, r.reason)
          | .error e => ("", "uninterested", "AI initial classification failed: " ++ e)
        let item2 := { item1 with Thought := thought1 }
        let evs1 := .existsCheck item.ID :: pevs ++
          [.classifyCall item1.Title item1.Description rules lang]
        -- 5. Conditional Deep Processing
        if src.Summarize && (level1 = "high_interest" || level1 = "interest") then
          let content := if item2.Content.utf8ByteSize < 100 then item2.Description
                         else item2.Content
          match env.ai.summarize aiCfg item2.Title content lang with
          | .error _ =>
            let itF := { item2 with InterestLevel := level1, Reason := reason1 }
            let rs := runSave env.store st itF
            ⟨rs.1, itF, rs.2, evs1 ++ [.summarizeCall item2.Title content lang, .saveCall itF]⟩
          | .ok summary =>
            let item3 := { item2 with Summary := summary }
            match env.ai.classify aiCfg item3.Title summary rules lang with
            | .error _ =>
              let itF := { item3 with InterestLevel := level1, Reason := reason1 }
              let rs := runSave env.store st itF
              ⟨rs.1, itF, rs.2, evs1 ++ [.summarizeCall item2.Title content lang,
                .classifyCall item3.Title summary rules lang, .saveCall itF]⟩
            | .ok r2 =>
              let itF := { item3 with
                           Thought := r2.thought
                           InterestLevel := r2.level
                           Reason := r2.reason }
              let rs := runSave env.store st itF
              ⟨rs.1, itF, rs.2, evs1 ++ [.summarizeCall item2.Title content lang,
                .classifyCall item3.Title summary rules lang, .saveCall itF]⟩
        else
          let itF := { item2 with InterestLevel := level1, Reason := reason1 }
          let rs := runSave env.store st itF
          ⟨rs.1, itF, rs.2, evs1 ++ [.saveCall itF]⟩

/-- `engine.SourceError`: one recorded per-source failure. -/
structure SourceError where
  Name : String
  URL : String
  Err : String
  deriving DecidableEq, Repr

/-- `engine.EngineResult`: the aggregate outcome of one run. -/
structure EngineResult where
  SourcesProcessed : Nat
  SourcesFailed : List SourceError
  ItemsProcessed : Nat
  ItemsHighInterest : Nat
  deriving DecidableEq, Repr

/-- The empty result every run starts from. -/
def EngineResult.empty : EngineResult := ⟨0, [], 0, 0⟩

/-- Combining the contributions of consecutive tasks to the shared
result (the Go code increments shared counters under a mutex; summing
per-task deltas is the sequentialised equivalent). -/
def EngineResult.add (a b : EngineResult) : EngineResult :=
  ⟨a.SourcesProcessed + b.SourcesProcessed,
   a.SourcesFailed ++ b.SourcesFailed,
   a.ItemsProcessed + b.ItemsProcessed,
   a.ItemsHighInterest + b.ItemsHighInterest⟩

/-- Outcome of one source task (or of the whole source loop): the value
the task's function returns, its contribution to the shared result, the
store it leaves behind and its trace. -/
structure TOut where
  res : Except String Unit
  result : EngineResult
  store : Store
  trace : List Event

/-- The body of `Run`'s per-item loop for one item (cancellation never
fires in the embedded executions, so the `select` takes its `default`
branch): emit `item_start`, wait on the rate limiter, acquire the
admission slot, run `processItem`, release the slot, then on success
update the shared counters and emit `item_done`. -/
def runItemStep (env : Env) (src : SourceConfig) (rules : String)
    (idx total : Nat) (item : Item) (st : Store) : EngineResult × Store × List Event :=
  let pre : List Event := [.itemStart src.Name item.Title (idx + 1) total, .token, .acquire]
  let p := processItem env src item rules st
  match p.res with
  | .error _ => (EngineResult.empty, p.store, pre ++ p.trace ++ [.release])
  | .ok _ =>
    let hi : Nat := if p.item.InterestLevel = "high_interest" then 1 else 0
    ({ EngineResult.empty with ItemsProcessed := 1, ItemsHighInterest := hi },
     p.store,
     pre ++ p.trace ++ [.release,
       .itemDone src.Name p.item.Title p.item.InterestLevel (idx + 1) total])

/-- `Run`'s per-item loop over the fetched items of one source, in feed
order. -/
def runItems (env : Env) (src : SourceConfig) (rules : String) (total : Nat) :
    Nat → List Item → Store → EngineResult × Store × List Event
  | _, [], st => (EngineResult.empty, st, [])
  | idx, item :: rest, st =>
    let s := runItemStep env src rules idx total item st
    let srest := runItems env src rules total (idx + 1) rest s.2.1
    (s.1.add srest.1, srest.2.1, s.2.2 ++ srest.2.2)

/-- One source task of `Run`: emit `source_start`, fetch the feed — on
failure record the per-source failure, emit `source_done` with the error
message and return nil — otherwise count the source as processed, build
the effective rules string and loop over the items. -/
def runSourceTask (env : Env) (src : SourceConfig) (st : Store) : TOut :=
  match env.fetch src.URL src.Name with
  | .error e =>
    ⟨.ok (),
     { EngineResult.empty with SourcesFailed := [⟨src.Name, src.URL, e⟩] },
     st,
     [.sourceStart src.Name, .sourceDone src.Name ("Error fetching items: " ++ e) 0 0]⟩
  | .ok items =>
    let rules := BuildRulesString env.cfg.Global src
    let out := runItems env src rules items.length 0 items st
    ⟨.ok (),
     { out.1 with SourcesProcessed := out.1.SourcesProcessed + 1 },
     out.2.1,
     .sourceStart src.Name :: out.2.2 ++
       [.sourceDone src.Name "" items.length items.length]⟩

/-- The fold of `Run` over the configured sources.  The source tasks run
concurrently in Go; since each task's contribution to the shared result
is a delta added under the mutex, the sequentialised fold yields the
same aggregate result, and the store is threaded task by task. -/
def runSources (env : Env) : List SourceConfig → Store → TOut
  | [], st => ⟨.ok (), EngineResult.empty, st, []⟩
  | src :: rest, st =>
    let t := runSourceTask env src st
    let trest := runSources env rest t.store
    ⟨match t.res with
      | .error e => .error e
      | .ok _ => trest.res,
     t.result.add trest.result,
     trest.store,
     t.trace ++ trest.trace⟩

/-- `Engine.Run`: run all source tasks, propagate the first task error
(only cancellation can produce one), otherwise generate the reports
(modelled as the generation events) and return the aggregate result. -/
def RunM (env : Env) (st : Store) : Except String EngineResult × Store × List Event :=
  let t := runSources env env.cfg.Sources st
  match t.res with
  | .error e => (.error e, t.store, t.trace)
  | .ok _ => (.ok t.result, t.store, t.trace ++ [.genStart, .genDone])

/-! ### Inference HTTP layer (`internal/ai/ai.go`) -/

/-- Whether `pat` starts `s`, character by character. -/
def startsWithL : List Char → List Char → Bool
  | [], _ => true
  | _ :: _, [] => false
  | a :: as, b :: bs => a = b && startsWithL as bs

/-- Whether `pat` occurs contiguously inside `s`. -/
def hasSubList (pat : List Char) : List Char → Bool
  | [] => pat.isEmpty
  | c :: rest => startsWithL pat (c :: rest) || hasSubList pat rest

/-- Whether one string occurs inside another (the model of
`strings.Contains`). -/
def containsSub (s pat : String) : Bool :=
  hasSubList pat.toList s.toList

/-- `Client.shouldRetry`: a failed attempt is retried when its error
text contains `"429"` or `"status 5"`. -/
def shouldRetry (e : String) : Bool :=
  containsSub e "429" || containsSub e "status 5"

/-- An HTTP response of one attempt: status code and body. -/
structure HTTPResp where
  status : Nat
  body : String
  deriving DecidableEq, Repr

/-- `Client.doRequest` for one attempt, given the transport outcome and
the provider's `parseResponse`: a non-200 status becomes the error
`"AI request failed with status <code>: <body>"`, a parse failure
`"parse response: …"`, a transport failure `"do request: …"`. -/
def doRequest (resp : Except String HTTPResp) (parse : String → Except String String)
    (post : String → String) : Except String String :=
  match resp with
  | .error e => .error ("do request: " ++ e)
  | .ok r =>
    if r.status ≠ 200 then
      .error ("AI request failed with status " ++ toString r.status ++ ": " ++ r.body)
    else
      match parse r.body with
      | .error e => .error ("parse response: " ++ e)
      | .ok t => .ok (post t)

/-- One step of the retry loop's trace: an attempt, or the backoff sleep
before a retry (in seconds). -/
inductive REv where
  | attempt (i : Nat)
  | backoff (secs : Nat)
  deriving DecidableEq, Repr

/-- The loop of `Client.doRequestWithRetry`, with the per-attempt
outcome supplied as an oracle: before every attempt but the first,
back off `2^(i-1)` seconds; return the first success; stop at the first
non-retryable error; after the fixed ceiling wrap the last error. -/
def retryGo (att : Nat → Except String String) :
    Nat → Nat → String → Except String String × List REv
  | _, 0, lastErr => (.error ("all retries failed: " ++ lastErr), [])
  | i, r + 1, _ =>
    let pre : List REv := if i > 0 then [.backoff (2 ^ (i - 1))] else []
    match att i with
    | .ok res => (.ok res, pre ++ [.attempt i])
    | .error e =>
      if shouldRetry e then
        let (res, tr) := retryGo att (i + 1) r e
        (res, pre ++ [.attempt i] ++ tr)
      else (.error e, pre ++ [.attempt i])

/-- `Client.doRequestWithRetry` (`maxRetries = 3`). -/
def doRequestWithRetry (att : Nat → Except String String) :
    Except String String × List REv :=
  retryGo att 0 3 ""

/-- Number of attempts recorded in a retry trace. -/
def countAttempts (tr : List REv) : Nat :=
  tr.countP (fun e => match e with | .attempt _ => true | _ => false)

/-- The backoff delays recorded in a retry trace, in order. -/
def backoffs (tr : List REv) : List Nat :=
  tr.filterMap (fun e => match e with | .backoff s => some s | _ => none)

/-! ### Feed retrieval (`internal/rss/rss.go`) -/

/-- A Go slice, keeping the distinction between the nil slice and a
non-nil empty one: `var items []*storage.Item` starts nil, and `append`
always yields a non-nil slice. -/
structure GoSlice (α : Type) where
  isNil : Bool
  elems : List α
  deriving DecidableEq, Repr

/-- The nil slice (`var items []*storage.Item`). -/
def GoSlice.nil {α : Type} : GoSlice α := ⟨true, []⟩

/-- `items = append(items, x)`. -/
def GoSlice.push {α : Type} (s : GoSlice α) (x : α) : GoSlice α :=
  ⟨false, s.elems ++ [x]⟩

/-- One entry of a parsed feed (the `gofeed` item fields `FetchItems`
reads). -/
structure FeedEntry where
  Title : String
  Link : String
  Description : String
  Content : String
  PublishedParsed : Option Nat
  UpdatedParsed : Option Nat
  deriving DecidableEq, Repr

/-- A parsed feed. -/
structure Feed where
  items : List FeedEntry
  deriving DecidableEq, Repr

/-- `rss.generateID`, with the SHA-256 hex digest supplied as an
abstract function `h`: the fingerprint of `source + "|" + link`. -/
def generateID (h : String → String) (source link : String) : String :=
  h (source ++ "|" ++ link)

/-- The item `FetchItems` builds from one feed entry (`now` models
`time.Now()`); classification fields stay at their zero value. -/
def mkItem (h : String → String) (now : Nat) (sourceName : String)
    (entry : FeedEntry) : Item :=
  { ID := generateID h sourceName entry.Link
    Source := sourceName
    Title := entry.Title
    Link := entry.Link
    Description := entry.Description
    Content := entry.Content
    Summary := ""
    InterestLevel := ""
    Reason := ""
    Thought := ""
    PublishedAt :=
      match entry.PublishedParsed with
      | some t => t
      | none =>
        match entry.UpdatedParsed with
        | some t => t
        | none => now }

/-- `rss.FetchItems`, with the parser's outcome supplied as an oracle:
on parse failure return the error; otherwise build the item slice by
appending one item per entry to the nil slice. -/
def FetchItems (h : String → String) (now : Nat) (sourceName : String)
    (parsed : Except String Feed) : Except String (GoSlice Item) :=
  match parsed with
  | .error e => .error e
  | .ok feed =>
    .ok (feed.items.foldl (fun acc entry => acc.push (mkItem h now sourceName entry))
           GoSlice.nil)

/-! ### Trace helpers and shared lemmas -/

/-- An event is a backpressure-gate operation. -/
def Event.isGate : Event → Bool
  | .token => true
  | .acquire => true
  | .release => true
  | _ => false

/-- An event is a plugin execution. -/
def Event.isPluginRun : Event → Bool
  | .pluginRun _ => true
  | _ => false

/-- An event is a `SaveItem` call. -/
def Event.isSave : Event → Bool
  | .saveCall _ => true
  | _ => false

/-- Number of inference calls recorded in a trace. -/
def countInference (tr : List Event) : Nat :=
  tr.countP Event.isInference

/-- Number of `SaveItem` calls recorded in a trace. -/
def countSaves (tr : List Event) : Nat :=
  tr.countP Event.isSave

theorem Event.isPluginRun_classes (e : Event) (h : e.isPluginRun = true) :
    e.isGate = false ∧ e.isInference = false ∧ e.isSave = false := by
  cases e <;> simp_all [Event.isPluginRun, Event.isGate, Event.isInference, Event.isSave]

theorem runPlugins_pluginRun (reg : PluginReg) (ns : List String) (it : Item) :
    ∀ e ∈ (runPlugins reg ns it).2, e.isPluginRun = true := by
  induction ns generalizing it with
  | nil => simp [runPlugins]
  | cons n rest ih =>
    intro e he
    unfold runPlugins at he
    split at he
    · exact ih it e he
    · split at he
      · simp at he
        simp [he, Event.isPluginRun]
      · rename_i it' heq
        simp at he
        rcases he with he | he
        · simp [he, Event.isPluginRun]
        · exact ih it' e he

theorem Store.lookup_saveItem_self (st : Store) (it : Item) :
    (st.saveItem it).lookup it.ID = some it := by
  induction st with
  | nil => simp [Store.saveItem, Store.lookup, List.find?]
  | cons p rest ih =>
    by_cases h : p.1 = it.ID
    · simp [Store.saveItem, h, Store.lookup, List.find?]
    · simp only [Store.saveItem, if_neg h]
      simp only [Store.lookup, List.find?] at ih ⊢
      simp [h, ih]

/-- `processItem` on an identity already present: the existence check
succeeds, nothing else runs, nothing changes. -/
theorem processItem_skip (env : Env) (src : SourceConfig) (item : Item)
    (rules : String) (st : Store)
    (hnoerr : env.store.existsErr item.ID = none)
    (hin : st.existsId item.ID = true) :
    processItem env src item rules st = ⟨.ok (), item, st, [.existsCheck item.ID]⟩ := by
  unfold processItem
  rw [hnoerr, hin]
  simp

/-! ### Concrete witness material -/

/-- A fetched item as `rss.FetchItems` builds it: classification fields
at their zero value. -/
def itemA : Item :=
  ⟨"id-a", "srcA", "Title A", "http://a/1", "desc a", "", "", "", "", "", 0⟩

/-- A storage collaborator with no injected failures. -/
def okStoreOracle : StoreOracle := ⟨fun _ => none, fun _ => none⟩

/-- An empty plugin registry. -/
def noPlugins : PluginReg := ⟨fun _ => none⟩

/-- A concrete global configuration. -/
def gW : GlobalConfig := ⟨"g-high", "g-int", "g-un", "g-ex", "en", none, 0, 0, 0⟩

/-- A source without deep summarization. -/
def srcNoSum : SourceConfig := ⟨"srcA", "", "http://a", "", "", "", "", [], false, none⟩

/-- A summarization-enabled source. -/
def srcSum : SourceConfig := ⟨"srcA", "", "http://a", "c", "", "", "", [], true, none⟩

/-- An inference oracle whose second-phase classification (on the
generated summary) differs from the first-phase one. -/
def aiTwoPhase : AIOracle :=
  ⟨fun _ _ content _ _ =>
     if content = "the summary" then .ok ⟨"t2", "interest", "r2"⟩
     else .ok ⟨"t1", "high_interest", "r1"⟩,
   fun _ _ _ _ => .ok "the summary"⟩

/-- Environment used to instantiate the skip-path theorems. -/
def envSkip : Env :=
  ⟨⟨gW, [srcNoSum]⟩, noPlugins, okStoreOracle, aiTwoPhase, fun _ _ => .ok []⟩

/-! ### C1 -/

/-- C1: for an item whose identity is already in the durable store,
`processItem` returns success immediately after the existence check —
no plugins, zero inference calls, no `SaveItem`, store unchanged. -/
theorem claim_C1_idempotent_skip (env : Env) (src : SourceConfig) (item : Item)
    (rules : String) (st : Store)
    (hnoerr : env.store.existsErr item.ID = none)
    (hin : st.existsId item.ID = true) :
    processItem env src item rules st = ⟨.ok (), item, st, [.existsCheck item.ID]⟩ ∧
    countInference (processItem env src item rules st).trace = 0 ∧
    countSaves (processItem env src item rules st).trace = 0 ∧
    (processItem env src item rules st).trace.countP Event.isPluginRun = 0 ∧
    (processItem env src item rules st).store = st := by
  have h := processItem_skip env src item rules st hnoerr hin
  rw [h]
  refine ⟨rfl, ?_, ?_, ?_, rfl⟩ <;>
    simp [countInference, countSaves, Event.isInference, Event.isSave, Event.isPluginRun]

/-- C1 instantiated: the skip path at a concrete store holding the item. -/
theorem claim_C1_witness :
    processItem envSkip srcNoSum itemA "R" [(itemA.ID, itemA)] =
      ⟨.ok (), itemA, [(itemA.ID, itemA)], [.existsCheck itemA.ID]⟩ ∧
    countInference (processItem envSkip srcNoSum itemA "R" [(itemA.ID, itemA)]).trace = 0 ∧
    countSaves (processItem envSkip srcNoSum itemA "R" [(itemA.ID, itemA)]).trace = 0 ∧
    (processItem envSkip srcNoSum itemA "R" [(itemA.ID, itemA)]).trace.countP
      Event.isPluginRun = 0 ∧
    (processItem envSkip srcNoSum itemA "R" [(itemA.ID, itemA)]).store =
      [(itemA.ID, itemA)] :=
  claim_C1_idempotent_skip envSkip srcNoSum itemA "R" [(itemA.ID, itemA)] rfl (by decide)

/-! ### C10 -/

/-- C10: an already-stored item still counts as processed — the loop
body yields an `ItemsProcessed` delta of 1, an `ItemsHighInterest`
delta of 0, leaves the store unchanged and emits `item_done` carrying
an empty interest level. -/
theorem claim_C10_skipped_item_counted (env : Env) (src : SourceConfig)
    (rules : String) (idx total : Nat) (item : Item) (st : Store)
    (hnoerr : env.store.existsErr item.ID = none)
    (hin : st.existsId item.ID = true)
    (hlev : item.InterestLevel = "") :
    runItemStep env src rules idx total item st =
      (⟨0, [], 1, 0⟩, st,
       [.itemStart src.Name item.Title (idx + 1) total, .token, .acquire,
        .existsCheck item.ID, .release,
        .itemDone src.Name item.Title "" (idx + 1) total]) := by
  have h := processItem_skip env src item rules st hnoerr hin
  unfold runItemStep
  rw [h]
  simp [hlev, EngineResult.empty]

/-- C10 instantiated at a concrete already-stored item. -/
theorem claim_C10_witness :
    runItemStep envSkip srcNoSum "R" 0 1 itemA [(itemA.ID, itemA)] =
      (⟨0, [], 1, 0⟩, [(itemA.ID, itemA)],
       [.itemStart srcNoSum.Name itemA.Title 1 1, .token, .acquire,
        .existsCheck itemA.ID, .release,
        .itemDone srcNoSum.Name itemA.Title "" 1 1]) :=
  claim_C10_skipped_item_counted envSkip srcNoSum "R" 0 1 itemA [(itemA.ID, itemA)]
    rfl (by decide) rfl

/-! ### C2 -/

/-- C2: for a new item from a summarization-enabled source whose
Phase-1 classification is `high_interest` and whose Summarize and
second Classify succeed, `processItem` makes exactly the three
inference calls Classify, Summarize, Classify in that order, and the
persisted record carries the second classification's level and
justification. -/
theorem claim_C2_two_phase
    (env : Env) (src : SourceConfig) (item : Item) (rules : String) (st : Store)
    (item1 : Item) (pevs : List Event) (r1 : ClassifyRes) (content summ : String)
    (r2 : ClassifyRes)
    (hnoerr : env.store.existsErr item.ID = none)
    (hnotin : st.existsId item.ID = false)
    (hplug : runPlugins env.plugins src.Plugins item = (Except.ok item1, pevs))
    (hsum : src.Summarize = true)
    (hc1 : env.ai.classify (ResolveAIConfig env.cfg.Global.AI src.AI) item1.Title
      item1.Description rules env.cfg.Global.PreferredLanguage = Except.ok r1)
    (hhigh : r1.level = "high_interest")
    (hcontent : content = if item1.Content.utf8ByteSize < 100 then item1.Description
      else item1.Content)
    (hsm : env.ai.summarize (ResolveAIConfig env.cfg.Global.AI src.AI) item1.Title
      content env.cfg.Global.PreferredLanguage = Except.ok summ)
    (hc2 : env.ai.classify (ResolveAIConfig env.cfg.Global.AI src.AI) item1.Title
      summ rules env.cfg.Global.PreferredLanguage = Except.ok r2)
    (hsave : ∀ it, env.store.saveErr it = none) :
    (processItem env src item rules st).trace.filter Event.isInference =
      [.classifyCall item1.Title item1.Description rules env.cfg.Global.PreferredLanguage,
       .summarizeCall item1.Title content env.cfg.Global.PreferredLanguage,
       .classifyCall item1.Title summ rules env.cfg.Global.PreferredLanguage] ∧
    (processItem env src item rules st).res = Except.ok () ∧
    (processItem env src item rules st).item.InterestLevel = r2.level ∧
    (processItem env src item rules st).item.Reason = r2.reason ∧
    (processItem env src item rules st).item.Summary = summ ∧
    (processItem env src item rules st).store.lookup
      (processItem env src item rules st).item.ID =
      some (processItem env src item rules st).item := by
  subst hcontent
  have hfilter : pevs.filter Event.isInference = [] := by
    rw [List.filter_eq_nil_iff]
    intro e he
    have hm : e ∈ (runPlugins env.plugins src.Plugins item).2 := by rw [hplug]; exact he
    have := (Event.isPluginRun_classes e
      (runPlugins_pluginRun env.plugins src.Plugins item e hm)).2.1
    simp [this]
  simp [processItem, hnoerr, hnotin, hplug, hc1, hhigh, hsum, hsm, hc2, hsave,
    runSave, hfilter, Event.isInference, Store.lookup_saveItem_self]

/-- Environment used to instantiate the two-phase theorems. -/
def envTP : Env :=
  ⟨⟨gW, [srcSum]⟩, noPlugins, okStoreOracle, aiTwoPhase, fun _ _ => .ok []⟩

/-- C2 instantiated: a concrete new item, Phase-1 `high_interest`,
successful summarize and re-classification. -/
theorem claim_C2_witness :
    (processItem envTP srcSum itemA "R" []).trace.filter Event.isInference =
      [.classifyCall "Title A" "desc a" "R" "en",
       .summarizeCall "Title A" "desc a" "en",
       .classifyCall "Title A" "the summary" "R" "en"] ∧
    (processItem envTP srcSum itemA "R" []).res = Except.ok () ∧
    (processItem envTP srcSum itemA "R" []).item.InterestLevel = "interest" ∧
    (processItem envTP srcSum itemA "R" []).item.Reason = "r2" ∧
    (processItem envTP srcSum itemA "R" []).item.Summary = "the summary" ∧
    (processItem envTP srcSum itemA "R" []).store.lookup
      (processItem envTP srcSum itemA "R" []).item.ID =
      some (processItem envTP srcSum itemA "R" []).item :=
  claim_C2_two_phase envTP srcSum itemA "R" [] itemA [] ⟨"t1", "high_interest", "r1"⟩
    "desc a" "the summary" ⟨"t2", "interest", "r2"⟩ rfl rfl rfl rfl rfl rfl rfl rfl rfl
    (fun _ => rfl)

/-! ### C4 -/

/-- C4: if Phase-1 returns `high_interest` or `interest` for a
summarization-enabled source and the Summarize call fails, the item is
persisted with the Phase-1 level and justification, its summary stays
as it was, and no second Classify call happens. -/
theorem claim_C4_summarize_failure_degrades
    (env : Env) (src : SourceConfig) (item : Item) (rules : String) (st : Store)
    (item1 : Item) (pevs : List Event) (r1 : ClassifyRes) (content e : String)
    (hnoerr : env.store.existsErr item.ID = none)
    (hnotin : st.existsId item.ID = false)
    (hplug : runPlugins env.plugins src.Plugins item = (Except.ok item1, pevs))
    (hsum : src.Summarize = true)
    (hc1 : env.ai.classify (ResolveAIConfig env.cfg.Global.AI src.AI) item1.Title
      item1.Description rules env.cfg.Global.PreferredLanguage = Except.ok r1)
    (hlv : r1.level = "high_interest" ∨ r1.level = "interest")
    (hcontent : content = if item1.Content.utf8ByteSize < 100 then item1.Description
      else item1.Content)
    (hsm : env.ai.summarize (ResolveAIConfig env.cfg.Global.AI src.AI) item1.Title
      content env.cfg.Global.PreferredLanguage = Except.error e)
    (hsave : ∀ it, env.store.saveErr it = none) :
    (processItem env src item rules st).trace.filter Event.isInference =
      [.classifyCall item1.Title item1.Description rules env.cfg.Global.PreferredLanguage,
       .summarizeCall item1.Title content env.cfg.Global.PreferredLanguage] ∧
    (processItem env src item rules st).res = Except.ok () ∧
    (processItem env src item rules st).item.InterestLevel = r1.level ∧
    (processItem env src item rules st).item.Reason = r1.reason ∧
    (processItem env src item rules st).item.Summary = item1.Summary ∧
    (processItem env src item rules st).store.lookup
      (processItem env src item rules st).item.ID =
      some (processItem env src item rules st).item := by
  subst hcontent
  have hfilter : pevs.filter Event.isInference = [] := by
    rw [List.filter_eq_nil_iff]
    intro ev he
    have hm : ev ∈ (runPlugins env.plugins src.Plugins item).2 := by rw [hplug]; exact he
    have := (Event.isPluginRun_classes ev
      (runPlugins_pluginRun env.plugins src.Plugins item ev hm)).2.1
    simp [this]
  rcases hlv with hlv | hlv <;>
    simp [processItem, hnoerr, hnotin, hplug, hc1, hlv, hsum, hsm, hsave,
      runSave, hfilter, Event.isInference, Store.lookup_saveItem_self]

/-- An inference oracle whose summarization always fails. -/
def aiSummFail : AIOracle :=
  ⟨fun _ _ _ _ _ => .ok ⟨"t1", "high_interest", "r1"⟩,
   fun _ _ _ _ => .error "summarize down"⟩

/-- Environment used to instantiate the summarize-failure theorem. -/
def envSF : Env :=
  ⟨⟨gW, [srcSum]⟩, noPlugins, okStoreOracle, aiSummFail, fun _ _ => .ok []⟩

/-- C4 instantiated: Phase-1 `high_interest`, failing Summarize. -/
theorem claim_C4_witness :
    (processItem envSF srcSum itemA "R" []).trace.filter Event.isInference =
      [.classifyCall "Title A" "desc a" "R" "en",
       .summarizeCall "Title A" "desc a" "en"] ∧
    (processItem envSF srcSum itemA "R" []).res = Except.ok () ∧
    (processItem envSF srcSum itemA "R" []).item.InterestLevel = "high_interest" ∧
    (processItem envSF srcSum itemA "R" []).item.Reason = "r1" ∧
    (processItem envSF srcSum itemA "R" []).item.Summary = "" ∧
    (processItem envSF srcSum itemA "R" []).store.lookup
      (processItem envSF srcSum itemA "R" []).item.ID =
      some (processItem envSF srcSum itemA "R" []).item :=
  claim_C4_summarize_failure_degrades envSF srcSum itemA "R" [] itemA []
    ⟨"t1", "high_interest", "r1"⟩ "desc a" "summarize down"
    rfl rfl rfl rfl rfl (Or.inl rfl) rfl rfl (fun _ => rfl)

/-! ### C5 -/

/-- C5: when Phase-1 classification fails for a new item, `processItem`
falls back to `uninterested` with a synthetic justification, makes no
further inference call, and still calls `SaveItem`, returning the
save's result. -/
theorem claim_C5_classify_failure_fallback
    (env : Env) (src : SourceConfig) (item : Item) (rules : String) (st : Store)
    (item1 : Item) (pevs : List Event) (e : String)
    (hnoerr : env.store.existsErr item.ID = none)
    (hnotin : st.existsId item.ID = false)
    (hplug : runPlugins env.plugins src.Plugins item = (Except.ok item1, pevs))
    (hc1 : env.ai.classify (ResolveAIConfig env.cfg.Global.AI src.AI) item1.Title
      item1.Description rules env.cfg.Global.PreferredLanguage = Except.error e) :
    (processItem env src item rules st).item.InterestLevel = "uninterested" ∧
    (processItem env src item rules st).item.Reason =
      "AI initial classification failed: " ++ e ∧
    (processItem env src item rules st).trace.filter Event.isInference =
      [.classifyCall item1.Title item1.Description rules
        env.cfg.Global.PreferredLanguage] ∧
    countSaves (processItem env src item rules st).trace = 1 ∧
    (processItem env src item rules st).res =
      (runSave env.store st (processItem env src item rules st).item).1 ∧
    (env.store.saveErr (processItem env src item rules st).item = none →
      (processItem env src item rules st).store.lookup
        (processItem env src item rules st).item.ID =
        some (processItem env src item rules st).item) := by
  have hall := runPlugins_pluginRun env.plugins src.Plugins item
  rw [hplug] at hall
  have hfilter : pevs.filter Event.isInference = [] := by
    rw [List.filter_eq_nil_iff]
    intro ev he
    have := (Event.isPluginRun_classes ev (hall ev he)).2.1
    simp [this]
  have hsaves : pevs.countP Event.isSave = 0 := by
    rw [List.countP_eq_zero]
    intro ev he
    have := (Event.isPluginRun_classes ev (hall ev he)).2.2
    simp [this]
  rcases hse : env.store.saveErr
      ({ item1 with
         Thought := ""
         InterestLevel := "uninterested"
         Reason := "AI initial classification failed: " ++ e } : Item) with _ | er
  · simp [processItem, hnoerr, hnotin, hplug, hc1, hse, runSave, hfilter, hsaves,
      countSaves, Event.isInference, Event.isSave, Store.lookup_saveItem_self]
  · simp [processItem, hnoerr, hnotin, hplug, hc1, hse, runSave, hfilter, hsaves,
      countSaves, Event.isInference, Event.isSave]

/-- An inference oracle whose classification always fails. -/
def aiClassFail : AIOracle :=
  ⟨fun _ _ _ _ _ => .error "model overloaded",
   fun _ _ _ _ => .ok "unused"⟩

/-- Environment used to instantiate the classification-failure theorem. -/
def envCF : Env :=
  ⟨⟨gW, [srcSum]⟩, noPlugins, okStoreOracle, aiClassFail, fun _ _ => .ok []⟩

/-- C5 instantiated: failing Phase-1 classification at a concrete item. -/
theorem claim_C5_witness :
    (processItem envCF srcSum itemA "R" []).item.InterestLevel = "uninterested" ∧
    (processItem envCF srcSum itemA "R" []).item.Reason =
      "AI initial classification failed: " ++ "model overloaded" ∧
    (processItem envCF srcSum itemA "R" []).trace.filter Event.isInference =
      [.classifyCall "Title A" "desc a" "R" "en"] ∧
    countSaves (processItem envCF srcSum itemA "R" []).trace = 1 ∧
    (processItem envCF srcSum itemA "R" []).res =
      (runSave envCF.store [] (processItem envCF srcSum itemA "R" []).item).1 ∧
    (envCF.store.saveErr (processItem envCF srcSum itemA "R" []).item = none →
      (processItem envCF srcSum itemA "R" []).store.lookup
        (processItem envCF srcSum itemA "R" []).item.ID =
        some (processItem envCF srcSum itemA "R" []).item) :=
  claim_C5_classify_failure_fallback envCF srcSum itemA "R" [] itemA []
    "model overloaded" rfl rfl rfl rfl

/-! ### C6 -/

/-- A source task never propagates an error in the uncancelled
executions: a fetch failure is recorded and the task returns nil. -/
theorem runSourceTask_ok (env : Env) (src : SourceConfig) (st : Store) :
    (runSourceTask env src st).res = Except.ok () := by
  rcases h : env.fetch src.URL src.Name with e | items <;> simp [runSourceTask, h]

/-- The source fold never propagates an error in the uncancelled
executions. -/
theorem runSources_ok (env : Env) (srcs : List SourceConfig) (st : Store) :
    (runSources env srcs st).res = Except.ok () := by
  induction srcs generalizing st with
  | nil => rfl
  | cons s rest ih => simp [runSources, runSourceTask_ok, ih]

/-- C6: a feed-retrieval failure for source `A` is recorded as a
`(name, URL, error)` entry, `A`'s task returns without error, every
other source is processed against the same store exactly as it would
have been without `A`, and `Run` still returns a result, not an
error. -/
theorem claim_C6_source_isolation
    (env : Env) (A : SourceConfig) (rest : List SourceConfig) (st : Store) (e : String)
    (hsrcs : env.cfg.Sources = A :: rest)
    (hfail : env.fetch A.URL A.Name = Except.error e) :
    (runSourceTask env A st).res = Except.ok () ∧
    (runSources env (A :: rest) st).result.SourcesFailed =
      ⟨A.Name, A.URL, e⟩ :: (runSources env rest st).result.SourcesFailed ∧
    (runSources env (A :: rest) st).result.ItemsProcessed =
      (runSources env rest st).result.ItemsProcessed ∧
    (runSources env (A :: rest) st).result.ItemsHighInterest =
      (runSources env rest st).result.ItemsHighInterest ∧
    (runSources env (A :: rest) st).result.SourcesProcessed =
      (runSources env rest st).result.SourcesProcessed ∧
    (runSources env (A :: rest) st).store = (runSources env rest st).store ∧
    (RunM env st).1 = Except.ok (runSources env (A :: rest) st).result := by
  have htask : runSourceTask env A st =
      ⟨.ok (), { EngineResult.empty with SourcesFailed := [⟨A.Name, A.URL, e⟩] }, st,
       [.sourceStart A.Name,
        .sourceDone A.Name ("Error fetching items: " ++ e) 0 0]⟩ := by
    simp [runSourceTask, hfail]
  have hrs : runSources env (A :: rest) st =
      ⟨(runSources env rest st).res,
       ({ EngineResult.empty with
          SourcesFailed := [⟨A.Name, A.URL, e⟩] } : EngineResult).add
         (runSources env rest st).result,
       (runSources env rest st).store,
       [.sourceStart A.Name,
        .sourceDone A.Name ("Error fetching items: " ++ e) 0 0] ++
         (runSources env rest st).trace⟩ := by
    simp [runSources, htask]
  refine ⟨by rw [htask], ?_, ?_, ?_, ?_, ?_, ?_⟩ <;>
    simp [hrs, EngineResult.add, EngineResult.empty, RunM, hsrcs, runSources_ok]

/-- A second source whose feed succeeds with one item. -/
def itemB : Item :=
  ⟨"id-b", "B", "Title B", "http://b/1", "desc b", "", "", "", "", "", 0⟩

/-- A source whose feed retrieval fails in the C6 instantiation. -/
def srcA6 : SourceConfig := ⟨"A", "", "http://a6", "", "", "", "", [], false, none⟩

/-- A source whose feed retrieval succeeds in the C6 instantiation. -/
def srcB6 : SourceConfig := ⟨"B", "", "http://b6", "", "", "", "", [], false, none⟩

/-- Environment with two sources, the first of which fails to fetch. -/
def envC6 : Env :=
  ⟨⟨gW, [srcA6, srcB6]⟩, noPlugins, okStoreOracle, aiTwoPhase,
   fun url _ => if url = "http://a6" then .error "fetch down" else .ok [itemB]⟩

/-- C6 instantiated: source A's fetch fails, source B still runs. -/
theorem claim_C6_witness :
    (runSourceTask envC6 srcA6 []).res = Except.ok () ∧
    (runSources envC6 (srcA6 :: [srcB6]) []).result.SourcesFailed =
      ⟨srcA6.Name, srcA6.URL, "fetch down"⟩ ::
        (runSources envC6 [srcB6] []).result.SourcesFailed ∧
    (runSources envC6 (srcA6 :: [srcB6]) []).result.ItemsProcessed =
      (runSources envC6 [srcB6] []).result.ItemsProcessed ∧
    (runSources envC6 (srcA6 :: [srcB6]) []).result.ItemsHighInterest =
      (runSources envC6 [srcB6] []).result.ItemsHighInterest ∧
    (runSources envC6 (srcA6 :: [srcB6]) []).result.SourcesProcessed =
      (runSources envC6 [srcB6] []).result.SourcesProcessed ∧
    (runSources envC6 (srcA6 :: [srcB6]) []).store =
      (runSources envC6 [srcB6] []).store ∧
    (RunM envC6 []).1 = Except.ok (runSources envC6 (srcA6 :: [srcB6]) []).result :=
  claim_C6_source_isolation envC6 srcA6 [srcB6] [] "fetch down" rfl rfl

/-! ### Trace structure of processItem (used by C3 and C8) -/

/-- The tail a deep-processing branch appends after the Phase-1
classification event: a bare save, a failed summarize then save, or a
summarize followed by the Phase-2 classification (carrying the same
rules string) then save. -/
def deepTail (rules lang : String) (extra : List Event) : Prop :=
  (∃ it, extra = [Event.saveCall it]) ∨
  (∃ a b it, extra = [Event.summarizeCall a b lang, Event.saveCall it]) ∨
  (∃ a b t s it, extra = [Event.summarizeCall a b lang,
    Event.classifyCall t s rules lang, Event.saveCall it])

/-- Exhaustive description of the traces `processItem` can record: the
bare existence check, the check followed by plugin events (aborted
item), or the full pipeline — check, plugins, Phase-1 classification
with the caller's rules, then one of the deep-processing tails. -/
theorem processItem_trace_cases (env : Env) (src : SourceConfig) (item : Item)
    (rules : String) (st : Store) :
    (processItem env src item rules st).trace = [.existsCheck item.ID] ∨
    (∃ pevs, (processItem env src item rules st).trace = .existsCheck item.ID :: pevs ∧
      ∀ e ∈ pevs, Event.isPluginRun e = true) ∨
    (∃ pevs t0 c0 extra,
      (processItem env src item rules st).trace =
        (.existsCheck item.ID ::
          (pevs ++ [.classifyCall t0 c0 rules env.cfg.Global.PreferredLanguage])) ++
          extra ∧
      (∀ e ∈ pevs, Event.isPluginRun e = true) ∧
      deepTail rules env.cfg.Global.PreferredLanguage extra) := by
  have hall := runPlugins_pluginRun env.plugins src.Plugins item
  unfold processItem
  split
  · left; rfl
  · split
    · left; rfl
    · split
      · rename_i e pevs heq
        rw [heq] at hall
        right; left
        exact ⟨pevs, rfl, hall⟩
      · rename_i item1 pevs heq
        rw [heq] at hall
        right; right
        dsimp only
        rcases hc : env.ai.classify (ResolveAIConfig env.cfg.Global.AI src.AI)
            item1.Title item1.Description rules env.cfg.Global.PreferredLanguage
            with e1 | r1 <;> dsimp only
        · split
          · split
            · exact ⟨pevs, _, _, _, rfl, hall, Or.inr (Or.inl ⟨_, _, _, rfl⟩)⟩
            · split
              · exact ⟨pevs, _, _, _, rfl, hall, Or.inr (Or.inr ⟨_, _, _, _, _, rfl⟩)⟩
              · exact ⟨pevs, _, _, _, rfl, hall, Or.inr (Or.inr ⟨_, _, _, _, _, rfl⟩)⟩
          · exact ⟨pevs, _, _, _, rfl, hall, Or.inl ⟨_, rfl⟩⟩
        · split
          · split
            · exact ⟨pevs, _, _, _, rfl, hall, Or.inr (Or.inl ⟨_, _, _, rfl⟩)⟩
            · split
              · exact ⟨pevs, _, _, _, rfl, hall, Or.inr (Or.inr ⟨_, _, _, _, _, rfl⟩)⟩
              · exact ⟨pevs, _, _, _, rfl, hall, Or.inr (Or.inr ⟨_, _, _, _, _, rfl⟩)⟩
          · exact ⟨pevs, _, _, _, rfl, hall, Or.inl ⟨_, rfl⟩⟩

/-- Plugin traces contain no inference call, no gate operation and no
Classify event. -/
theorem pluginTrace_facts (pv : List Event)
    (h : ∀ e ∈ pv, Event.isPluginRun e = true) :
    pv.countP Event.isInference = 0 ∧ (∀ e ∈ pv, Event.isGate e = false) ∧
    (∀ t c r l, Event.classifyCall t c r l ∉ pv) := by
  refine ⟨?_, ?_, ?_⟩
  · rw [List.countP_eq_zero]
    intro e he
    have := (Event.isPluginRun_classes e (h e he)).2.1
    simp [this]
  · intro e he
    exact (Event.isPluginRun_classes e (h e he)).1
  · intro t c r l hm
    have := h _ hm
    simp [Event.isPluginRun] at this

/-- Facts about the deep-processing tails: no gate operations, at most
two inference calls, and any Classify call carries the rules string. -/
theorem deepTail_facts (rules lang : String) (extra : List Event)
    (h : deepTail rules lang extra) :
    (∀ e ∈ extra, Event.isGate e = false) ∧
    extra.countP Event.isInference ≤ 2 ∧
    (∀ t c r l, Event.classifyCall t c r l ∈ extra → r = rules) := by
  rcases h with ⟨it, rfl⟩ | ⟨a, b, it, rfl⟩ | ⟨a, b, t0, s0, it, rfl⟩
  · refine ⟨?_, ?_, ?_⟩
    · intro e he; simp at he; simp [he, Event.isGate]
    · simp [Event.isInference]
    · intro t c r l hm; simp at hm
  · refine ⟨?_, ?_, ?_⟩
    · intro e he; simp at he
      rcases he with he | he <;> simp [he, Event.isGate]
    · simp [Event.isInference]
    · intro t c r l hm; simp at hm
  · refine ⟨?_, ?_, ?_⟩
    · intro e he; simp at he
      rcases he with he | he | he <;> simp [he, Event.isGate]
    · simp [Event.isInference]
    · intro t c r l hm
      simp at hm
      exact hm.2.2.1

/-- `processItem` records no gate operation of its own. -/
theorem processItem_gate_free (env : Env) (src : SourceConfig) (item : Item)
    (rules : String) (st : Store) :
    ∀ e ∈ (processItem env src item rules st).trace, Event.isGate e = false := by
  rcases processItem_trace_cases env src item rules st with
    h | ⟨pevs, h, hp⟩ | ⟨pevs, t0, c0, extra, h, hp, hd⟩
  · rw [h]; intro e he; simp at he; simp [he, Event.isGate]
  · rw [h]; intro e he
    rcases List.mem_cons.mp he with he | he
    · simp [he, Event.isGate]
    · exact (Event.isPluginRun_classes e (hp e he)).1
  · rw [h]; intro e he
    rcases List.mem_append.mp he with he | he
    · rcases List.mem_cons.mp he with he | he
      · simp [he, Event.isGate]
      · rcases List.mem_append.mp he with he | he
        · exact (Event.isPluginRun_classes e (hp e he)).1
        · rw [List.mem_singleton.mp he]; rfl
    · exact (deepTail_facts _ _ _ hd).1 e he

/-- `processItem` makes at most three inference calls. -/
theorem processItem_inference_le3 (env : Env) (src : SourceConfig) (item : Item)
    (rules : String) (st : Store) :
    countInference (processItem env src item rules st).trace ≤ 3 := by
  rcases processItem_trace_cases env src item rules st with
    h | ⟨pevs, h, hp⟩ | ⟨pevs, t0, c0, extra, h, hp, hd⟩
  · rw [h]; simp [countInference, Event.isInference]
  · rw [h]
    have h1 := (pluginTrace_facts pevs hp).1
    simp [countInference, List.countP_cons, h1, Event.isInference]
  · rw [h]
    have h1 := (pluginTrace_facts pevs hp).1
    have h2 := (deepTail_facts _ _ _ hd).2.1
    simp [countInference, List.countP_append, List.countP_cons, h1,
      Event.isInference] at h2 ⊢
    omega

/-- Every Classify call `processItem` records carries the rules string
the caller passed in. -/
theorem processItem_classify_rules (env : Env) (src : SourceConfig) (item : Item)
    (rules : String) (st : Store) :
    ∀ t c r l, Event.classifyCall t c r l ∈ (processItem env src item rules st).trace →
      r = rules := by
  intro t c r l hm
  rcases processItem_trace_cases env src item rules st with
    h | ⟨pevs, h, hp⟩ | ⟨pevs, t0, c0, extra, h, hp, hd⟩
  · rw [h] at hm; simp at hm
  · rw [h] at hm
    rcases List.mem_cons.mp hm with hm | hm
    · simp at hm
    · exact absurd hm ((pluginTrace_facts pevs hp).2.2 t c r l)
  · rw [h] at hm
    rcases List.mem_append.mp hm with hm | hm
    · rcases List.mem_cons.mp hm with hm | hm
      · simp at hm
      · rcases List.mem_append.mp hm with hm | hm
        · exact absurd hm ((pluginTrace_facts pevs hp).2.2 t c r l)
        · have := List.mem_singleton.mp hm
          simp only [Event.classifyCall.injEq] at this
          exact this.2.2.1
    · exact (deepTail_facts _ _ _ hd).2.2 t c r l hm

/-! ### C3 -/

/-- The property C3 asserts of a trace: every inference call has its own
rate token and its own admission slot, and the slot is released
immediately after the call returns. -/
def admissionPerCall (tr : List Event) : Prop :=
  countInference tr ≤ tr.countP (fun e => e == Event.token) ∧
  countInference tr ≤ tr.countP (fun e => e == Event.acquire) ∧
  ∀ i : Fin tr.length, Event.isInference (tr.get i) = true →
    (tr.drop (i.1 + 1)).head? = some Event.release

/-- The trace of one two-phase item under the per-item loop. -/
def trC3 : List Event := (runItemStep envTP srcSum "R" 0 1 itemA []).2.2

/-- C3 fails on the code: a two-phase item makes three inference calls
under a single token acquisition and a single admission slot, and no
release separates consecutive calls. -/
theorem claim_C3_counterexample :
    countInference trC3 = 3 ∧
    trC3.countP (fun e => e == Event.acquire) = 1 ∧
    trC3.countP (fun e => e == Event.token) = 1 ∧
    ¬ admissionPerCall trC3 := by
  refine ⟨by decide, by decide, by decide, ?_⟩
  unfold admissionPerCall
  decide

/-- C3 amended: the token and the admission slot are acquired once per
item, before any of that item's inference calls; the slot is released
immediately after the item's processing returns; all of the item's (at
most three) inference calls lie between the acquisition and the
release, which perform no gate operations of their own. -/
theorem claim_C3_per_item_admission (env : Env) (src : SourceConfig)
    (rules : String) (idx total : Nat) (item : Item) (st : Store) :
    ∃ post : List Event,
      (runItemStep env src rules idx total item st).2.2 =
        .itemStart src.Name item.Title (idx + 1) total :: .token :: .acquire ::
          ((processItem env src item rules st).trace ++ .release :: post) ∧
      (∀ e ∈ (processItem env src item rules st).trace, Event.isGate e = false) ∧
      countInference (processItem env src item rules st).trace ≤ 3 ∧
      (∀ e ∈ post, Event.isInference e = false) := by
  unfold runItemStep
  rcases hres : (processItem env src item rules st).res with e | u
  · exact ⟨[], by simp [hres], processItem_gate_free env src item rules st,
      processItem_inference_le3 env src item rules st, by simp⟩
  · refine ⟨[.itemDone src.Name (processItem env src item rules st).item.Title
      (processItem env src item rules st).item.InterestLevel (idx + 1) total],
      by simp [hres], processItem_gate_free env src item rules st,
      processItem_inference_le3 env src item rules st, ?_⟩
    intro e he
    simp at he
    simp [he, Event.isInference]

/-! ### C8 -/

theorem runItemStep_classify_rules (env : Env) (src : SourceConfig) (rules : String)
    (idx total : Nat) (item : Item) (st : Store) :
    ∀ t c r l, Event.classifyCall t c r l ∈
      (runItemStep env src rules idx total item st).2.2 → r = rules := by
  intro t c r l hm
  unfold runItemStep at hm
  dsimp only at hm
  split at hm <;>
  · rcases List.mem_append.mp hm with hm | hm
    · rcases List.mem_append.mp hm with hm | hm
      · simp at hm
      · exact processItem_classify_rules env src item rules st t c r l hm
    · simp at hm

theorem runItems_classify_rules (env : Env) (src : SourceConfig) (rules : String)
    (total : Nat) :
    ∀ (items : List Item) (idx : Nat) (st : Store) (t c r l : String),
      Event.classifyCall t c r l ∈ (runItems env src rules total idx items st).2.2 →
      r = rules := by
  intro items
  induction items with
  | nil => intro idx st t c r l hm; simp [runItems] at hm
  | cons it rest ih =>
    intro idx st t c r l hm
    unfold runItems at hm
    rcases List.mem_append.mp hm with hm | hm
    · exact runItemStep_classify_rules env src rules idx total it st t c r l hm
    · exact ih (idx + 1) _ t c r l hm

/-- Every Classify call a source task makes carries that source's
effective rules string. -/
theorem runSourceTask_classify_rules (env : Env) (src : SourceConfig) (st : Store) :
    ∀ t c r l, Event.classifyCall t c r l ∈ (runSourceTask env src st).trace →
      r = BuildRulesString env.cfg.Global src := by
  intro t c r l hm
  unfold runSourceTask at hm
  split at hm
  · simp at hm
  · dsimp only at hm
    rcases List.mem_append.mp hm with hm | hm
    · rcases List.mem_cons.mp hm with hm | hm
      · simp at hm
      · exact runItems_classify_rules env src _ _ _ 0 st t c r l hm
    · simp at hm

/-- C8: per interest level the effective rule string appends the
source-specific terms to the global ones with a comma (either side
returned unchanged when the other is empty; `"a,b"` with `"c"` gives
`"a,b,c"`), `BuildRulesString` applies this merge to all four levels,
and every Classify call of a source task carries that merged string. -/
theorem claim_C8_rule_merging (g s : String) :
    (s = "" → mergeStrings g s = g) ∧
    (g = "" → mergeStrings g s = s) ∧
    (g ≠ "" → s ≠ "" → mergeStrings g s = g ++ "," ++ s) ∧
    mergeStrings "a,b" "c" = "a,b,c" ∧
    (∀ (global : GlobalConfig) (src : SourceConfig),
      BuildRulesString global src =
        "High: " ++ mergeStrings global.HighInterest src.HighInterest ++
        ", Interest: " ++ mergeStrings global.Interest src.Interest ++
        ", Uninterested: " ++ mergeStrings global.Uninterested src.Uninterested ++
        ", Exclude: " ++ mergeStrings global.Exclude src.Exclude) ∧
    (∀ (env : Env) (src : SourceConfig) (st : Store) (t c r l : String),
      Event.classifyCall t c r l ∈ (runSourceTask env src st).trace →
      r = BuildRulesString env.cfg.Global src) := by
  refine ⟨?_, ?_, ?_, by decide, fun _ _ => rfl, runSourceTask_classify_rules⟩
  · intro hs; simp [mergeStrings, hs]
  · intro hg
    by_cases hs : s = "" <;> simp [mergeStrings, hg, hs]
  · intro hg hs; simp [mergeStrings, hg, hs]

/-! ### C7 -/

theorem startsWithL_append (pat : List Char) :
    ∀ l m : List Char, startsWithL pat l = true → startsWithL pat (l ++ m) = true := by
  induction pat with
  | nil => intro l m _; simp [startsWithL]
  | cons a as ih =>
    intro l m h
    cases l with
    | nil => simp [startsWithL] at h
    | cons b bs =>
      simp [startsWithL] at h ⊢
      exact ⟨h.1, ih bs m h.2⟩

theorem hasSubList_nil (m : List Char) : hasSubList [] m = true := by
  cases m <;> simp [hasSubList, startsWithL, List.isEmpty]

theorem hasSubList_append_left (pat : List Char) :
    ∀ l m : List Char, hasSubList pat l = true → hasSubList pat (l ++ m) = true := by
  intro l
  induction l with
  | nil =>
    intro m h
    simp [hasSubList] at h
    rcases pat with _ | ⟨c, cs⟩
    · simp [hasSubList_nil]
    · simp [List.isEmpty] at h
  | cons c rest ih =>
    intro m h
    simp only [hasSubList, Bool.or_eq_true] at h ⊢
    rcases h with h | h
    · exact Or.inl (startsWithL_append pat (c :: rest) m h)
    · exact Or.inr (ih m h)

theorem containsSub_append_left (s t pat : String) (h : containsSub s pat = true) :
    containsSub (s ++ t) pat = true := by
  unfold containsSub at h ⊢
  rw [show (s ++ t).toList = s.toList ++ t.toList by
    simp [String.toList, String.data_append]]
  exact hasSubList_append_left _ _ _ h

/-- The 429 error text is always judged retryable, whatever the body. -/
theorem shouldRetry_of_429 (body : String) :
    shouldRetry ("AI request failed with status " ++ toString (429 : Nat) ++ ": " ++ body) =
      true := by
  unfold shouldRetry
  rw [Bool.or_eq_true]
  left
  exact containsSub_append_left _ body "429" (by decide)

theorem status5_head : ∀ k : Fin 100,
    containsSub ("AI request failed with status " ++ toString (500 + (k : Nat)))
      "status 5" = true := by
  decide

/-- Every 5xx error text is judged retryable, whatever the body. -/
theorem shouldRetry_of_5xx (n : Nat) (h1 : 500 ≤ n) (h2 : n < 600) (body : String) :
    shouldRetry ("AI request failed with status " ++ toString n ++ ": " ++ body) =
      true := by
  have hk : n - 500 < 100 := by omega
  have h := status5_head ⟨n - 500, hk⟩
  have he : 500 + ((⟨n - 500, hk⟩ : Fin 100) : Nat) = n := by
    simp only [Fin.val_mk]
    omega
  rw [he] at h
  unfold shouldRetry
  rw [Bool.or_eq_true]
  right
  exact containsSub_append_left _ body _ (containsSub_append_left _ ": " _ h)

/-- `doRequest` on a non-200 response yields the status error text. -/
theorem doRequest_status_error (n : Nat) (body : String)
    (parse : String → Except String String) (post : String → String) (hn : n ≠ 200) :
    doRequest (.ok ⟨n, body⟩) parse post =
      .error ("AI request failed with status " ++ toString n ++ ": " ++ body) := by
  simp [doRequest, hn]

/-- The per-attempt outcome oracle of the C7 counterexample: every
attempt sees HTTP 400 with a body that happens to contain "429". -/
def att400 : Nat → Except String String :=
  fun _ => doRequest (.ok ⟨400, "Rate limit: error 429"⟩) (fun _ => .error "unused")
    (fun t => t)

/-- C7 fails on the code: a permanent 400 response whose body contains
"429" is retried to the attempt ceiling instead of being surfaced
immediately, because the retry test is substring matching on the error
text. -/
theorem claim_C7_counterexample :
    att400 0 = .error "AI request failed with status 400: Rate limit: error 429" ∧
    countAttempts (doRequestWithRetry att400).2 = 3 ∧
    backoffs (doRequestWithRetry att400).2 = [1, 2] ∧
    (doRequestWithRetry att400).1 =
      .error "all retries failed: AI request failed with status 400: Rate limit: error 429" ∧
    (400 : Nat) ≠ 429 ∧ ¬ (500 ≤ (400 : Nat) ∧ (400 : Nat) < 600) :=
  ⟨rfl, rfl, rfl, rfl, by decide, by decide⟩

/-- C7 amended: an attempt's failure is retried exactly when its error
text contains "429" or "status 5" — which holds of every 429 and 5xx
response whatever the body — with exponential backoff (1s then 2s) up
to three attempts, the last error then wrapped as "all retries failed";
an error without those substrings is surfaced immediately. -/
theorem claim_C7_retry_policy (att : Nat → Except String String) :
    (1 ≤ countAttempts (doRequestWithRetry att).2 ∧
      countAttempts (doRequestWithRetry att).2 ≤ 3) ∧
    backoffs (doRequestWithRetry att).2 =
      (List.range (countAttempts (doRequestWithRetry att).2 - 1)).map (fun i => 2 ^ i) ∧
    (∀ i, i + 1 < countAttempts (doRequestWithRetry att).2 →
      ∃ e, att i = Except.error e ∧ shouldRetry e = true) ∧
    (∀ i e, att i = Except.error e → shouldRetry e = false →
      i < countAttempts (doRequestWithRetry att).2 →
      (doRequestWithRetry att).1 = Except.error e) ∧
    (∀ e0 e1 e2, att 0 = Except.error e0 → shouldRetry e0 = true →
      att 1 = Except.error e1 → shouldRetry e1 = true →
      att 2 = Except.error e2 → shouldRetry e2 = true →
      (doRequestWithRetry att).1 = Except.error ("all retries failed: " ++ e2)) ∧
    (∀ (n : Nat) (body : String), n = 429 ∨ (500 ≤ n ∧ n < 600) →
      shouldRetry ("AI request failed with status " ++ toString n ++ ": " ++ body) =
        true) := by
  have hstatus : ∀ (n : Nat) (body : String), n = 429 ∨ (500 ≤ n ∧ n < 600) →
      shouldRetry ("AI request failed with status " ++ toString n ++ ": " ++ body) =
        true := by
    rintro n body (rfl | ⟨h1, h2⟩)
    · exact shouldRetry_of_429 body
    · exact shouldRetry_of_5xx n h1 h2 body
  rcases h0 : att 0 with e0 | s0
  case ok =>
    have hval : doRequestWithRetry att = (.ok s0, [.attempt 0]) := by
      simp [doRequestWithRetry, retryGo, h0]
    rw [hval]
    refine ⟨by simp [countAttempts], by simp [backoffs, countAttempts, List.range_succ], ?_, ?_, ?_, hstatus⟩
    · intro i hi
      simp [countAttempts] at hi
    · intro i e he _ hi
      have h1 : i < 1 := by simpa [countAttempts] using hi
      have hi0 : i = 0 := by omega
      subst hi0
      rw [h0] at he
      simp at he
    · intro e0' e1' e2' ha0 _ _ _ _ _
      simp at ha0
  case error =>
    cases hr0 : shouldRetry e0
    case false =>
      have hval : doRequestWithRetry att = (.error e0, [.attempt 0]) := by
        simp [doRequestWithRetry, retryGo, h0, hr0]
      rw [hval]
      refine ⟨by simp [countAttempts], by simp [backoffs, countAttempts, List.range_succ], ?_, ?_, ?_, hstatus⟩
      · intro i hi
        simp [countAttempts] at hi
      · intro i e he hre hi
        have h1 : i < 1 := by simpa [countAttempts] using hi
        have hi0 : i = 0 := by omega
        subst hi0
        rw [h0] at he
        injection he with hee
        subst hee
        rfl
      · intro e0' e1' e2' ha0 hr0' _ _ _ _
        injection ha0 with hee
        subst hee
        rw [hr0] at hr0'
        simp at hr0'
    case true =>
      rcases h1 : att 1 with e1 | s1
      case ok =>
        have hval : doRequestWithRetry att =
            (.ok s1, [.attempt 0, .backoff 1, .attempt 1]) := by
          simp [doRequestWithRetry, retryGo, h0, hr0, h1]
        rw [hval]
        refine ⟨by simp [countAttempts], by simp [backoffs, countAttempts, List.range_succ], ?_, ?_, ?_, hstatus⟩
        · intro i hi
          have h2 : i + 1 < 2 := by simpa [countAttempts] using hi
          have hi0 : i = 0 := by omega
          subst hi0
          exact ⟨e0, h0, hr0⟩
        · intro i e he hre hi
          have h2 : i < 2 := by simpa [countAttempts] using hi
          have : i = 0 ∨ i = 1 := by omega
          rcases this with rfl | rfl
          · rw [h0] at he
            injection he with hee
            subst hee
            rw [hr0] at hre
            simp at hre
          · rw [h1] at he
            simp at he
        · intro e0' e1' e2' _ _ ha1 _ _ _
          simp at ha1
      case error =>
        cases hr1 : shouldRetry e1
        case false =>
          have hval : doRequestWithRetry att =
              (.error e1, [.attempt 0, .backoff 1, .attempt 1]) := by
            simp [doRequestWithRetry, retryGo, h0, hr0, h1, hr1]
          rw [hval]
          refine ⟨by simp [countAttempts], by simp [backoffs, countAttempts, List.range_succ], ?_, ?_, ?_, hstatus⟩
          · intro i hi
            have h2 : i + 1 < 2 := by simpa [countAttempts] using hi
            have hi0 : i = 0 := by omega
            subst hi0
            exact ⟨e0, h0, hr0⟩
          · intro i e he hre hi
            have h2 : i < 2 := by simpa [countAttempts] using hi
            have : i = 0 ∨ i = 1 := by omega
            rcases this with rfl | rfl
            · rw [h0] at he
              injection he with hee
              subst hee
              rw [hr0] at hre
              simp at hre
            · rw [h1] at he
              injection he with hee
              subst hee
              rfl
          · intro e0' e1' e2' _ _ ha1 hr1' _ _
            injection ha1 with hee
            subst hee
            rw [hr1] at hr1'
            simp at hr1'
        case true =>
          rcases h2 : att 2 with e2 | s2
          case ok =>
            have hval : doRequestWithRetry att =
                (.ok s2, [.attempt 0, .backoff 1, .attempt 1, .backoff 2,
                  .attempt 2]) := by
              simp [doRequestWithRetry, retryGo, h0, hr0, h1, hr1, h2]
            rw [hval]
            refine ⟨by simp [countAttempts], by simp [backoffs, countAttempts, List.range_succ], ?_, ?_, ?_, hstatus⟩
            · intro i hi
              have h3 : i + 1 < 3 := by simpa [countAttempts] using hi
              have : i = 0 ∨ i = 1 := by omega
              rcases this with rfl | rfl
              · exact ⟨e0, h0, hr0⟩
              · exact ⟨e1, h1, hr1⟩
            · intro i e he hre hi
              have h3 : i < 3 := by simpa [countAttempts] using hi
              have : i = 0 ∨ i = 1 ∨ i = 2 := by omega
              rcases this with rfl | rfl | rfl
              · rw [h0] at he
                injection he with hee
                subst hee
                rw [hr0] at hre
                simp at hre
              · rw [h1] at he
                injection he with hee
                subst hee
                rw [hr1] at hre
                simp at hre
              · rw [h2] at he
                simp at he
            · intro e0' e1' e2' _ _ _ _ ha2 _
              simp at ha2
          case error =>
            cases hr2 : shouldRetry e2
            case false =>
              have hval : doRequestWithRetry att =
                  (.error e2, [.attempt 0, .backoff 1, .attempt 1, .backoff 2,
                    .attempt 2]) := by
                simp [doRequestWithRetry, retryGo, h0, hr0, h1, hr1, h2, hr2]
              rw [hval]
              refine ⟨by simp [countAttempts], by simp [backoffs, countAttempts, List.range_succ], ?_, ?_, ?_, hstatus⟩
              · intro i hi
                have h3 : i + 1 < 3 := by simpa [countAttempts] using hi
                have : i = 0 ∨ i = 1 := by omega
                rcases this with rfl | rfl
                · exact ⟨e0, h0, hr0⟩
                · exact ⟨e1, h1, hr1⟩
              · intro i e he hre hi
                have h3 : i < 3 := by simpa [countAttempts] using hi
                have : i = 0 ∨ i = 1 ∨ i = 2 := by omega
                rcases this with rfl | rfl | rfl
                · rw [h0] at he
                  injection he with hee
                  subst hee
                  rw [hr0] at hre
                  simp at hre
                · rw [h1] at he
                  injection he with hee
                  subst hee
                  rw [hr1] at hre
                  simp at hre
                · rw [h2] at he
                  injection he with hee
                  subst hee
                  rfl
              · intro e0' e1' e2' _ _ _ _ ha2 hr2'
                injection ha2 with hee
                subst hee
                rw [hr2] at hr2'
                simp at hr2'
            case true =>
              have hval : doRequestWithRetry att =
                  (.error ("all retries failed: " ++ e2),
                   [.attempt 0, .backoff 1, .attempt 1, .backoff 2, .attempt 2]) := by
                simp [doRequestWithRetry, retryGo, h0, hr0, h1, hr1, h2, hr2]
              rw [hval]
              refine ⟨by simp [countAttempts], by simp [backoffs, countAttempts, List.range_succ], ?_, ?_, ?_, hstatus⟩
              · intro i hi
                have h3 : i + 1 < 3 := by simpa [countAttempts] using hi
                have : i = 0 ∨ i = 1 := by omega
                rcases this with rfl | rfl
                · exact ⟨e0, h0, hr0⟩
                · exact ⟨e1, h1, hr1⟩
              · intro i e he hre hi
                have h3 : i < 3 := by simpa [countAttempts] using hi
                have : i = 0 ∨ i = 1 ∨ i = 2 := by omega
                rcases this with rfl | rfl | rfl
                · rw [h0] at he
                  injection he with hee
                  subst hee
                  rw [hr0] at hre
                  simp at hre
                · rw [h1] at he
                  injection he with hee
                  subst hee
                  rw [hr1] at hre
                  simp at hre
                · rw [h2] at he
                  injection he with hee
                  subst hee
                  rw [hr2] at hre
                  simp at hre
              · intro e0' e1' e2' _ _ _ _ ha2 _
                injection ha2 with hee
                subst hee
                rfl

/-! ### C9 -/

/-- Items built by `FetchItems` carry zero-valued classification fields
(this is what makes `item_done` for an idempotently skipped item carry
an empty interest level). -/
theorem mkItem_zero_fields (h : String → String) (now : Nat) (name : String)
    (entry : FeedEntry) :
    (mkItem h now name entry).InterestLevel = "" ∧
    (mkItem h now name entry).Summary = "" ∧
    (mkItem h now name entry).Reason = "" :=
  ⟨rfl, rfl, rfl⟩

theorem fetch_foldl_length (h : String → String) (now : Nat) (name : String) :
    ∀ (entries : List FeedEntry) (acc : GoSlice Item),
      (entries.foldl (fun acc entry => acc.push (mkItem h now name entry))
        acc).elems.length = acc.elems.length + entries.length := by
  intro entries
  induction entries with
  | nil => intro acc; simp
  | cons e rest ih =>
    intro acc
    rw [List.foldl_cons, ih]
    simp only [GoSlice.push, List.length_append, List.length_cons, List.length_nil]
    omega

/-- C9 fails on the code: on a feed that parses with zero entries,
`FetchItems` returns the nil slice (`var items []*storage.Item` is
never appended to), not an empty non-nil list. -/
theorem claim_C9_counterexample :
    FetchItems (fun s => s) 0 "src" (Except.ok ⟨[]⟩) = Except.ok GoSlice.nil ∧
    (GoSlice.nil : GoSlice Item).isNil = true ∧
    ¬ (GoSlice.nil : GoSlice Item).isNil = false :=
  ⟨rfl, rfl, by decide⟩

/-- C9 amended: on a feed that parses with zero entries `FetchItems`
returns the nil (hence empty) slice and no error; an error is returned
exactly when fetching or parsing fails; and on success the item list
has one item per feed entry. -/
theorem claim_C9_fetch_contract (h : String → String) (now : Nat) (name : String) :
    (∀ feed : Feed, feed.items = [] →
      FetchItems h now name (Except.ok feed) = Except.ok GoSlice.nil ∧
      (GoSlice.nil : GoSlice Item).isNil = true) ∧
    (∀ e, FetchItems h now name (Except.error e) = Except.error e) ∧
    (∀ (feed : Feed) (sl : GoSlice Item),
      FetchItems h now name (Except.ok feed) = Except.ok sl →
      sl.elems.length = feed.items.length) := by
  refine ⟨?_, fun e => rfl, ?_⟩
  · intro feed hfe
    cases feed
    simp at hfe
    subst hfe
    exact ⟨rfl, rfl⟩
  · intro feed sl hsl
    simp only [FetchItems, Except.ok.injEq] at hsl
    subst hsl
    simpa [GoSlice.nil] using fetch_foldl_length h now name feed.items GoSlice.nil

end Sieve